import Mathlib

/-!
Shallow embedding of the mesh boolean engine in
source/blender/bmesh/tools/bmesh_boolean.c, together with theorems that
settle the claims about its specification.

Modelling conventions:
* mesh elements are dense integer indices (Nat), as in the source;
* double precision coordinates in the intersector bookkeeping are modelled
  by exact rationals (a triple of Rat), and the classifier / plane
  geometry, which involves pi and atan2, by real numbers;
* external collaborators (k-d trees, BVH, the BMesh host) enter as the
  data they deliver: the coordinate k-d tree range search is a minimum
  index search over the vertex list, the BVH overlap primitive is an
  arbitrary list of index pairs, and so on.
-/

/-! ## Side tags

The source stores the side of each face in a byte `bs->face_side[f]` using
the BMesh header flags: `SIDE_A_TAG` is `BM_ELEM_TAG` (1 << 4) and
`SIDE_B_TAG` is `BM_ELEM_DRAW` (1 << 5); those two values come from
`bmesh_class.h`, which is not part of this extract, but the source relies
only on the three tags being distinct single bits
(`ALL_SIDE_TAGS` is their bitwise or).  `BOTH_SIDES_OPP_NORMALS_TAG` is
the literal `(1 << 6)` from bmesh_boolean.c line 1231. -/

/-- SIDE_A_TAG = BM_ELEM_TAG = 1 << 4. -/
def SIDE_A_TAG : Nat := 16

/-- SIDE_B_TAG = BM_ELEM_DRAW = 1 << 5. -/
def SIDE_B_TAG : Nat := 32

/-- BOTH_SIDES_OPP_NORMALS_TAG = (1 << 6), bmesh_boolean.c line 1231. -/
def BOTH_SIDES_OPP_NORMALS_TAG : Nat := 64

/-! ## The per group decision of do_boolean_op

Translated from `do_boolean_op`, bmesh_boolean.c lines 4116-4196.  For one
face group with representative side flags `fside`, the code computes
`both_sides = fside & (SIDE_A & SIDE_B)` and `opp_normals =
fside & BOTH_SIDES_OPP_NORMALS`, then either takes the both-sides branch
or computes `inside` from the winding number test and switches on the
boolean mode.  `inside` is passed in as the boolean the code would have
computed; groups with `fside == 0` are skipped by the caller before this
decision is reached. -/

/-- Boolean operation selector, standing for BMESH_BOOLEAN_ISECT,
BMESH_BOOLEAN_UNION, BMESH_BOOLEAN_DIFFERENCE. -/
inductive BoolOpMode
  | Isect
  | Union
  | Difference
deriving DecidableEq, Repr

/-- The pair of flags `do_remove`, `do_flip` computed per group. -/
structure GroupDecision where
  do_remove : Bool
  do_flip : Bool
deriving DecidableEq, Repr

/-- Translated from do_boolean_op lines 4120-4183: what the loop decides
for a single group, given the representative face flags and the `inside`
boolean.  C truthiness of an int is modelled by `≠ 0`. -/
def boolean_group_decision (mode : BoolOpMode) (fside : Nat) (inside : Bool) :
    GroupDecision :=
  let both_sides : Bool := decide (fside &&& (SIDE_A_TAG &&& SIDE_B_TAG) ≠ 0)
  let opp_normals : Bool := decide (fside &&& BOTH_SIDES_OPP_NORMALS_TAG ≠ 0)
  if both_sides then
    { do_remove := decide (mode = BoolOpMode.Union) && opp_normals
      do_flip := decide (mode = BoolOpMode.Difference) && opp_normals &&
        decide ((fside ||| SIDE_A_TAG) ≠ 0) }
  else
    match mode with
    | BoolOpMode.Isect => { do_remove := !inside, do_flip := false }
    | BoolOpMode.Union => { do_remove := inside, do_flip := false }
    | BoolOpMode.Difference =>
        { do_remove := if decide (fside &&& SIDE_A_TAG ≠ 0) then inside else !inside
          do_flip := decide (fside &&& SIDE_B_TAG ≠ 0) }

/-- What happens to each face of the group. -/
inductive GroupAction
  | keep
  | remove
  | flip
deriving DecidableEq, Repr

/-- Translated from do_boolean_op lines 4185-4195: faces of the group are
deleted when `do_remove`, else flipped when `do_flip`. -/
def boolean_group_action (d : GroupDecision) : GroupAction :=
  if d.do_remove then GroupAction.remove
  else if d.do_flip then GroupAction.flip
  else GroupAction.keep

/-- Translated from do_boolean_op line 4138:
`otherside = fside ^ (SIDE_A | SIDE_B)`. -/
def otherside_of (fside : Nat) : Nat := fside ^^^ (SIDE_A_TAG ||| SIDE_B_TAG)

/-! ## IntIntMap and resolve_merge -/

/-- Translated from `find_in_intintmap`, lines 437-449: linear scan for the
first pair whose key matches. -/
def find_in_intintmap : List (Int × Int) → Int → Option Int
  | [], _ => none
  | p :: rest, key => if p.1 = key then some p.2 else find_in_intintmap rest key

/-- Translated from `resolve_merge`, lines 1207-1216, with an explicit step
count: the source runs `while (find_in_intintmap(map, vmapped, &target))
vmapped = target;` with no bound and no cycle check, so
`resolve_merge_steps map v k` is the value of `vmapped` after at most `k`
iterations of that loop (stopping early at a fixed point, exactly when the
loop itself would stop). -/
def resolve_merge_steps (map : List (Int × Int)) : Int → Nat → Int
  | v, 0 => v
  | v, k + 1 =>
      match find_in_intintmap map v with
      | none => v
      | some t => resolve_merge_steps map t k

/-- The map discipline the spec demands of the intersector: every merge
entry points strictly downward (target below source). -/
def acyclic_forward (map : List (Int × Int)) : Prop := ∀ p ∈ map, p.2 < p.1

/-- The while loop of `resolve_merge` exits on input `v` iff after some
number of iterations the loop condition `find_in_intintmap` fails. -/
def merge_chase_exits (map : List (Int × Int)) (v : Int) : Prop :=
  ∃ k, find_in_intintmap map (resolve_merge_steps map v k) = none

/-- A two entry cycle: 0 maps to 1 and 1 maps to 0. -/
def c4_cycle_map : List (Int × Int) := [(0, 1), (1, 0)]

/-- A small acyclic merge map used to exercise the termination theorem. -/
def c4_demo_map : List (Int × Int) := [(2, 1), (1, 0)]

/-! ## Entry point return value -/

/-- Translated from `BM_mesh_boolean`, lines 3859-3953.  The parameters
stand for whether the intersect phase and the boolean phase changed the
mesh; the body of the source function ends in the single statement
`return true;` (line 3952), its only return statement, so the returned
flag does not depend on either. -/
def BM_mesh_boolean_return (changed_by_intersect changed_by_boolean : Bool) :
    Bool :=
  true

/-! ## Exact rational coordinates for the intersector bookkeeping

The intersector works in double precision; the bookkeeping claims below
depend only on comparisons and exact arithmetic, so coordinates are
modelled by rationals.  The source converts between float and double in a
few places (noted at each definition); the model uses one exact number
type throughout. -/

/-- A 3-vector of rational coordinates. -/
abbrev Vec3 := ℚ × ℚ × ℚ

/-- Translated from compare_v3v3 (BLI math): componentwise absolute
difference at most `eps` (the source returns false as soon as one
component differs by more than the limit). -/
def compare_v3v3_db (a b : Vec3) (eps : ℚ) : Prop :=
  |a.1 - b.1| ≤ eps ∧ |a.2.1 - b.2.1| ≤ eps ∧ |a.2.2 - b.2.2| ≤ eps

instance (a b : Vec3) (eps : ℚ) : Decidable (compare_v3v3_db a b eps) := by
  unfold compare_v3v3_db
  infer_instance

/-- First index of a list entry satisfying a predicate: the position the
linear scans and hash lookups of the source report. -/
def scan_first {α : Type} (p : α → Prop) [DecidablePred p] : List α → Option Nat
  | [] => none
  | x :: xs => if p x then some 0 else (scan_first p xs).map (· + 1)

/-- Translated from len_squared_v3v3_db: squared Euclidean distance. -/
def len_squared_v3v3_db (a b : Vec3) : ℚ :=
  (a.1 - b.1) ^ 2 + (a.2.1 - b.2.1) ^ 2 + (a.2.2 - b.2.2) ^ 2

/-! ## MeshAdd: the staged add buffer

Translated from the MeshAdd functions, lines 1743-1857.  The buffer keeps
new vertices and edges in staging order; extended indices start at
`vindex_start` / `eindex_start` (the host totals at init, line 1751-1752).
The edge hash keyed by unordered endpoint pairs is modelled by a first
match scan of the staged edge list, which returns the same position the
hash stores (`meshadd->totedge` at insert time, line 1854). -/

/-- The staged add buffer (vertex coordinates and edge endpoint pairs;
example links play no role in the claims below). -/
structure MeshAdd where
  vindex_start : Nat
  eindex_start : Nat
  verts : List Vec3
  edges : List (Nat × Nat)
deriving DecidableEq, Repr

/-- Translated from meshadd_add_vert, lines 1789-1817 (the `_db` wrapper
at 1819 converts double to float first; the model keeps one number type):
with `checkdup`, a linear scan returns the extended index of the first
staged vertex within `eps` componentwise; otherwise the vertex is
appended and its extended index `vindex_start + position` returned. -/
def meshadd_add_vert (ma : MeshAdd) (co : Vec3) (eps : ℚ) (checkdup : Bool) :
    Nat × MeshAdd :=
  match (if checkdup then scan_first (fun c => compare_v3v3_db c co eps) ma.verts
         else none) with
  | some i => (ma.vindex_start + i, ma)
  | none => (ma.vindex_start + ma.verts.length, { ma with verts := ma.verts ++ [co] })

/-- Unordered endpoint pair match, as the BLI_edgehash key comparison. -/
def unordered_pair_match (p : Nat × Nat) (v1 v2 : Nat) : Prop :=
  (p.1 = v1 ∧ p.2 = v2) ∨ (p.1 = v2 ∧ p.2 = v1)

instance (p : Nat × Nat) (v1 v2 : Nat) : Decidable (unordered_pair_match p v1 v2) := by
  unfold unordered_pair_match
  infer_instance

/-- Translated from meshadd_add_edge, lines 1827-1857: with `checkdup`,
the hash lookup returns the stored buffer position `i` of the first edge
with the same unordered endpoint pair and the function returns `i`
directly (lines 1835-1839 return the hash value without adding
`eindex_start`); otherwise the edge is appended, inserted into the hash
with value equal to its position, and `eindex_start + position` is
returned (line 1856). -/
def meshadd_add_edge (ma : MeshAdd) (v1 v2 : Nat) (checkdup : Bool) :
    Nat × MeshAdd :=
  match (if checkdup then scan_first (fun p => unordered_pair_match p v1 v2) ma.edges
         else none) with
  | some i => (i, ma)
  | none => (ma.eindex_start + ma.edges.length, { ma with edges := ma.edges ++ [(v1, v2)] })

/-! ## IMesh lookups used by the intersector -/

/-- The host mesh data consumed by the intersector claims: original vertex
coordinates in index order and original edges as endpoint pairs. -/
structure IMeshM where
  verts : List Vec3
  edges : List (Nat × Nat)
deriving DecidableEq, Repr

/-- Translated from imesh_find_co_db, lines 1046-1056, and find_co_cb,
lines 1033-1044: a range search of radius `eps` around `co` over the host
vertex coordinates, keeping the minimum index hit; the first hit of an
index order scan is that minimum. -/
def imesh_find_co_db (im : IMeshM) (co : Vec3) (eps : ℚ) : Option Nat :=
  scan_first (fun c => len_squared_v3v3_db c co ≤ eps * eps) im.verts

/-- Translated from imesh_find_edge, lines 1062-1086: find an edge between
the two vertices, either order, returning its index, else none. -/
def imesh_find_edge (im : IMeshM) (v1 v2 : Nat) : Option Nat :=
  scan_first (fun p => unordered_pair_match p v1 v2) im.edges

/-- The snap or stage pattern the intersector repeats (for example lines
3585-3589): `v = imesh_find_co_db(im, co, eps); if (v == -1)
v = meshadd_add_vert_db(bs, meshadd, co, -1, true);`. -/
def snap_or_stage_vert (im : IMeshM) (ma : MeshAdd) (co : Vec3) (eps : ℚ) :
    Nat × MeshAdd :=
  match imesh_find_co_db im co eps with
  | some v => (v, ma)
  | none => meshadd_add_vert ma co eps true

/-- Translated from add_to_intset, lines 329-334: prepend if absent. -/
def add_to_intset (s : List Nat) (x : Nat) : List Nat :=
  if x ∈ s then s else x :: s

/-! ## The single interval times single interval case

Translated from non_coplanar_part_part_intersect, lines 3543-3621: the
common case where the interval list of the A face and of the B face each
hold exactly one interval. -/

/-- One parameter interval along the intersection line with the
coordinates of its two ends (IntervalInfo in the source). -/
structure IntervalInfo where
  fac1 : ℚ
  fac2 : ℚ
  co1 : Vec3
  co2 : Vec3
deriving DecidableEq, Repr

/-- What one face pair contributes to the PartPartIntersect record. -/
inductive IsectContrib
  | nothing
  | vert (v : Nat)
  | edge (e : Nat)
deriving DecidableEq, Repr

/-- Result of processing one face pair: the contribution added to the
intersect record, the updated add buffer, and the updated
intersection-edge set of the change. -/
structure PairIsectResult where
  contrib : IsectContrib
  meshadd : MeshAdd
  intersection_edges : List Nat
deriving DecidableEq, Repr

/-- Translated from lines 3561-3566: the coordinate of the interval start,
taken from whichever interval supplied `facstart = max`. -/
def interval_start_co (ia ib : IntervalInfo) : Vec3 :=
  if max ia.fac1 ib.fac1 = ia.fac1 then ia.co1 else ib.co1

/-- Translated from lines 3567-3572: the coordinate of the interval end,
taken from whichever interval supplied `facend = min`. -/
def interval_end_co (ia ib : IntervalInfo) : Vec3 :=
  if min ia.fac2 ib.fac2 = ia.fac2 then ia.co2 else ib.co2

/-- Lines 3594-3598: snap or stage the start coordinate `co` of the
clipped interval. -/
def isect_pair_snap1 (im : IMeshM) (ma : MeshAdd) (ia ib : IntervalInfo)
    (eps : ℚ) : Nat × MeshAdd :=
  snap_or_stage_vert im ma (interval_start_co ia ib) eps

/-- Lines 3599-3602: snap or stage the end coordinate `co2` of the clipped
interval, against the add buffer left by the first snap. -/
def isect_pair_snap2 (im : IMeshM) (ma : MeshAdd) (ia ib : IntervalInfo)
    (eps : ℚ) : Nat × MeshAdd :=
  snap_or_stage_vert im (isect_pair_snap1 im ma ia ib eps).2
    (interval_end_co ia ib) eps

/-- Lines 3611-3615: find an edge between the two snapped vertices in the
host mesh, else stage one with duplicate detection. -/
def isect_pair_edge (im : IMeshM) (ma : MeshAdd) (ia ib : IntervalInfo)
    (eps : ℚ) : Nat × MeshAdd :=
  match imesh_find_edge im (isect_pair_snap1 im ma ia ib eps).1
      (isect_pair_snap2 im ma ia ib eps).1 with
  | some e0 => (e0, (isect_pair_snap2 im ma ia ib eps).2)
  | none =>
      meshadd_add_edge (isect_pair_snap2 im ma ia ib eps).2
        (isect_pair_snap1 im ma ia ib eps).1
        (isect_pair_snap2 im ma ia ib eps).1 true

/-- Translated from non_coplanar_part_part_intersect, lines 3543-3621:
intersect one single interval `ia` of an A face with one single interval
`ib` of a B face.  `facstart` is the max of the lows and `facend` the min
of the highs; an empty result within `eps` contributes nothing; ends that
coincide within `eps` contribute one snapped or staged vertex; otherwise
both ends are snapped or staged and, unless they resolve to the same
vertex (lines 3603-3609), an edge is found or staged and recorded both in
the intersect record and in the intersection-edge set. -/
def intersect_single_intervals (im : IMeshM) (ma : MeshAdd) (ies : List Nat)
    (ia ib : IntervalInfo) (eps : ℚ) : PairIsectResult :=
  let facstart := max ia.fac1 ib.fac1
  let facend := min ia.fac2 ib.fac2
  if facend < facstart - eps then
    { contrib := IsectContrib.nothing, meshadd := ma, intersection_edges := ies }
  else
    let co := interval_start_co ia ib
    let co2 := interval_end_co ia ib
    if compare_v3v3_db co co2 eps then
      let vm := isect_pair_snap1 im ma ia ib eps
      { contrib := IsectContrib.vert vm.1, meshadd := vm.2, intersection_edges := ies }
    else
      let s1 := isect_pair_snap1 im ma ia ib eps
      let s2 := isect_pair_snap2 im ma ia ib eps
      if s1.1 = s2.1 then
        { contrib := IsectContrib.vert s1.1, meshadd := s2.2, intersection_edges := ies }
      else
        let em := isect_pair_edge im ma ia ib eps
        { contrib := IsectContrib.edge em.1, meshadd := em.2
          intersection_edges := add_to_intset ies em.1 }

/-! ## The loose edge closest point case

Translated from non_coplanar_part_part_intersect, lines 3438-3458: the
branch where neither endpoint of a loose edge lies on the intersection
line.  The external primitive `isect_line_line_epsilon_v3_db` returns its
result code `is` and the two closest points `co_close1` (on the line) and
`co_close2` (between the lines); they enter the model as parameters.  The
surrounding function body keeps a scratch variable `co`, last written by
the loose vertex loop at line 3409; its current value enters as
`co_stale`, because line 3452 stages the new vertex at `co` even though
the point that was searched for at line 3449 is `co_close1`. -/
def loose_edge_line_isect_case (im : IMeshM) (ma : MeshAdd)
    (co1 co2 : Vec3) (is : Nat) (co_close1 co_close2 : Vec3)
    (co_stale : Vec3) (eps : ℚ) : Option Nat × MeshAdd :=
  if 0 < is then
    if is = 1 ∨ compare_v3v3_db co_close1 co_close2 eps then
      let elen_squared := len_squared_v3v3_db co1 co2 + eps * eps
      if len_squared_v3v3_db co_close1 co1 ≤ elen_squared ∧
          len_squared_v3v3_db co_close1 co2 ≤ elen_squared then
        match imesh_find_co_db im co_close1 eps with
        | some v => (some v, ma)
        | none =>
            let vm := meshadd_add_vert ma co_stale eps true
            (some vm.1, vm.2)
      else (none, ma)
    else (none, ma)
  else (none, ma)

/-! ## Real valued geometry for the winding classifier -/

/-- A 3-vector of real coordinates (double precision in the source). -/
abbrev Vec3R := ℝ × ℝ × ℝ

/-- Componentwise difference, as sub_v3_v3v3_db. -/
def sub_v3r (a b : Vec3R) : Vec3R :=
  (a.1 - b.1, a.2.1 - b.2.1, a.2.2 - b.2.2)

/-- Dot product, as dot_v3v3_db. -/
def dot_v3r (a b : Vec3R) : ℝ :=
  a.1 * b.1 + a.2.1 * b.2.1 + a.2.2 * b.2.2

/-- Cross product, as cross_v3_v3v3_db. -/
def cross_v3r (a b : Vec3R) : Vec3R :=
  (a.2.1 * b.2.2 - a.2.2 * b.2.1,
   a.2.2 * b.1 - a.1 * b.2.2,
   a.1 * b.2.1 - a.2.1 * b.1)

/-- Euclidean length, as len_v3_db. -/
noncomputable def len_v3r (a : Vec3R) : ℝ :=
  Real.sqrt (dot_v3r a a)

/-- The C library atan2, as the argument of the complex number
`x + y i`. -/
noncomputable def atan2 (y x : ℝ) : ℝ :=
  Complex.arg ⟨x, y⟩

/-- Translated from generalized_winding_number, lines 4021-4041: the
Van Oosterom and Strackee solid angle contribution `2 * atan2(num, denom)`
of one tessellation triangle `(p1, p2, p3)` of a face, seen from `co`,
with the source guard replacing a zero denominator by 10e-10. -/
noncomputable def oosterom_strackee_term (co p1 p2 p3 : Vec3R) : ℝ :=
  let a := sub_v3r p1 co
  let b := sub_v3r p2 co
  let c := sub_v3r p3 co
  let alen := len_v3r a
  let blen := len_v3r b
  let clen := len_v3r c
  let num := dot_v3r a (cross_v3r b c)
  let denom := alen * blen * clen + dot_v3r a b * clen + dot_v3r a c * blen +
    dot_v3r b c * alen
  let denom := if denom = 0 then 10e-10 else denom
  2 * atan2 num denom

/-- One face as the winding classifier consumes it: its side flag byte and
the triangles of its tessellation (`face_len - 2` triangles delivered by
the mesh abstraction, imesh_face_calc_tesselation). -/
structure WFace where
  fside : Nat
  tris : List (Vec3R × Vec3R × Vec3R)

/-- Translated from generalized_winding_number, lines 3995-4048, for one
face: the sum of its triangle contributions, each negated when
`negate = (fside | BOTH_SIDES_OPP_NORMALS)` (line 4000) is truthy. -/
noncomputable def face_gwn_contribution (co : Vec3R) (f : WFace) : ℝ :=
  let negate : Bool := decide ((f.fside ||| BOTH_SIDES_OPP_NORMALS_TAG) ≠ 0)
  (f.tris.map (fun t =>
    let s := oosterom_strackee_term co t.1 t.2.1 t.2.2
    if negate then -s else s)).sum

/-- Translated from generalized_winding_number, lines 3968-4058: sum the
contributions of the faces whose side byte intersects `side` (line 3997)
and divide by 4 pi (line 4050). -/
noncomputable def generalized_winding_number (faces : List WFace) (side : Nat)
    (co : Vec3R) : ℝ :=
  ((faces.filter (fun f => decide (f.fside &&& side ≠ 0))).map
    (face_gwn_contribution co)).sum / (Real.pi * 4)

/-- Translated from point_is_inside_side, lines 4064-4070:
`fabs(gwn) >= 0.5`. -/
def point_is_inside_side (faces : List WFace) (side : Nat) (co : Vec3R) :
    Prop :=
  |generalized_winding_number faces side co| ≥ 1 / 2

/-! ## Coplanar part construction

Translated from canonicalize_plane (lines 2446-2467), planes_are_coplanar
(lines 2288-2301), find_coplanar_cb (lines 2481-2493) and
find_coplanar_parts (lines 2500-2595).  A plane is the 4-vector
`(a, b, c, d)` with normal `(a, b, c)` and offset `d`. -/

/-- A plane 4-vector. -/
structure CanonPlane where
  a : ℝ
  b : ℝ
  c : ℝ
  d : ℝ

/-- Dot product of the normal parts of two planes. -/
def plane_normal_dot (p q : CanonPlane) : ℝ :=
  p.a * q.a + p.b * q.b + p.c * q.c

section

open Classical

/-- Translated from planes_are_coplanar, lines 2288-2301: same plane within
`eps`, allowing opposite orientations. -/
noncomputable def planes_are_coplanar (p q : CanonPlane) (eps : ℝ) : Prop :=
  if 0 < plane_normal_dot p q then
    |plane_normal_dot p q - 1| ≤ eps ∧ |p.d - q.d| ≤ eps
  else
    |plane_normal_dot p q + 1| ≤ eps ∧ |p.d + q.d| ≤ eps

/-- Modelled from the spec: two planes `(n1, d1)` and `(n2, d2)` with unit
normals are coplanar iff `|n1 . n2| >= 1 - eps` and
`|d1 - sign(n1 . n2) * d2| <= eps` (section 4.4, step 2). -/
def spec_coplanar_predicate (p q : CanonPlane) (eps : ℝ) : Prop :=
  |plane_normal_dot p q| ≥ 1 - eps ∧
    |p.d - Real.sign (plane_normal_dot p q) * q.d| ≤ eps

/-- Translated from find_coplanar_cb, lines 2485-2486: the match test the
range search callback really applies to a candidate plane, with float
arithmetic read as real arithmetic:
`fabsf(test[3] - co[3]) <= eps && fabsf(dot_v3v3(test, co) - 1.0f)
<= eps * M_2_PI` where `M_2_PI` is the C library constant 2 / pi. -/
def find_coplanar_cb_match (test cand : CanonPlane) (eps : ℝ) : Prop :=
  |test.d - cand.d| ≤ eps ∧
    |plane_normal_dot test cand - 1| ≤ eps * (2 / Real.pi)

/-- Squared 4 dimensional Euclidean distance between plane 4-vectors, the
metric of the BLI_kdtree_4d range search. -/
def plane_dist4_sq (p q : CanonPlane) : ℝ :=
  (p.a - q.a) ^ 2 + (p.b - q.b) ^ 2 + (p.c - q.c) ^ 2 + (p.d - q.d) ^ 2

/-- Translated from find_coplanar_parts, line 2556: the range search
radius is `feps * 10.0f`, so a candidate is delivered to the callback iff
its squared distance is within the squared radius. -/
def in_search_range (test cand : CanonPlane) (eps : ℝ) : Prop :=
  plane_dist4_sq test cand ≤ (10 * eps) ^ 2

/-- Translated from find_coplanar_cb, lines 2481-2493, folded over the
candidates the range search delivers: each candidate that already has a
part (`face_part[index] != NULL`, here: each listed candidate) and passes
the match test lowers `near_f_with_part` to the minimum matching index;
the result is none exactly when no candidate matched
(`near_f_with_part == -1`, line 2563, in which case find_coplanar_parts
creates a new part, else it appends the face to the part of the minimum
matching index, lines 2576-2578). -/
noncomputable def find_coplanar_near :
    List (Nat × CanonPlane) → CanonPlane → ℝ → Option Nat
  | [], _, _ => none
  | (f, p) :: rest, test, eps =>
      let r := find_coplanar_near rest test eps
      if in_search_range test p eps ∧ find_coplanar_cb_match test p eps then
        some (match r with | none => f | some g => min f g)
      else r

end

/-! ## Overlap processing order

Translated from bool_overlap_sort_fn (lines 3651-3673) and
intersect_partset_pair (lines 3744-3795): the BVH overlap array is sorted
with qsort under the lexicographic comparator before the processing loop
consumes it. -/

/-- Translated from bool_overlap_sort_fn, lines 3651-3673. -/
def bool_overlap_sort_fn (o1 o2 : Nat × Nat) : Int :=
  if o1.1 < o2.1 then -1
  else if o2.1 < o1.1 then 1
  else if o1.2 < o2.2 then -1
  else if o2.2 < o1.2 then 1
  else 0

/-- The ordering qsort establishes: comparator at most zero. -/
def overlap_le (o1 o2 : Nat × Nat) : Prop :=
  bool_overlap_sort_fn o1 o2 ≤ 0

instance : DecidableRel overlap_le := fun o1 o2 => by
  unfold overlap_le bool_overlap_sort_fn
  infer_instance

/-- The comparator order is plain lexicographic order on the pair. -/
theorem overlap_le_iff (o1 o2 : Nat × Nat) :
    overlap_le o1 o2 ↔ o1.1 < o2.1 ∨ (o1.1 = o2.1 ∧ o1.2 ≤ o2.2) := by
  unfold overlap_le bool_overlap_sort_fn
  split_ifs with h1 h2 h3 h4 <;> simp <;> omega

instance : IsTotal (Nat × Nat) overlap_le :=
  ⟨fun o1 o2 => by rw [overlap_le_iff, overlap_le_iff]; omega⟩

instance : IsTrans (Nat × Nat) overlap_le :=
  ⟨fun o1 o2 o3 h1 h2 => by
    rw [overlap_le_iff] at h1 h2 ⊢
    omega⟩

instance : IsAntisymm (Nat × Nat) overlap_le :=
  ⟨fun o1 o2 h1 h2 => by
    rw [overlap_le_iff] at h1 h2
    have ha : o1.1 = o2.1 := by omega
    have hb : o1.2 = o2.2 := by omega
    exact Prod.ext ha hb⟩

/-- Translated from intersect_partset_pair, lines 3752-3793: sort the
overlap pairs delivered by the BVH primitive (line 3755), then run the
processing loop over them in order.  The loop body — part lookup, the
same-partset skip, part_part_intersect and the appends to the isect lists
— is a deterministic transform of the accumulated state, abstracted here
as `step`. -/
def intersect_partset_overlap_fold {σ : Type} (step : σ → Nat × Nat → σ)
    (init : σ) (overlaps : List (Nat × Nat)) : σ :=
  (overlaps.insertionSort overlap_le).foldl step init


/-! ## Concrete inputs used by the claim theorems -/

/-- An add buffer over a host mesh with 10 edges, nothing staged yet. -/
def c9_start_meshadd : MeshAdd :=
  { vindex_start := 0, eindex_start := 10, verts := [], edges := [] }

/-- A host mesh with no vertices and no edges. -/
def c8_empty_imesh : IMeshM := { verts := [], edges := [] }

/-- An empty add buffer over an empty host mesh. -/
def c8_empty_meshadd : MeshAdd :=
  { vindex_start := 0, eindex_start := 0, verts := [], edges := [] }

/-- The add buffer after the loose edge case staged one vertex at the
stale coordinates (5, 5, 5). -/
def c8_result_meshadd : MeshAdd :=
  { vindex_start := 0, eindex_start := 0, verts := [(5, 5, 5)], edges := [] }

/-! ## Helper lemmas -/

/-- A successful find returns an entry of the map. -/
lemma find_in_intintmap_mem {map : List (Int × Int)} {key t : Int}
    (h : find_in_intintmap map key = some t) : (key, t) ∈ map := by
  induction map with
  | nil => simp [find_in_intintmap] at h
  | cons p rest ih =>
      rw [find_in_intintmap] at h
      by_cases hk : p.1 = key
      · rw [if_pos hk] at h
        have hp : p = (key, t) := by
          cases p
          cases h
          cases hk
          rfl
        rw [hp] at *
        exact List.mem_cons_self _ _
      · rw [if_neg hk] at h
        exact List.mem_cons_of_mem _ (ih h)

/-- Counting entries whose key is below a bound is monotone in the bound. -/
lemma filter_key_le_mono (map : List (Int × Int)) {t v : Int} (h : t ≤ v) :
    (map.filter (fun p => decide (p.1 ≤ t))).length ≤
      (map.filter (fun p => decide (p.1 ≤ v))).length := by
  induction map with
  | nil => simp
  | cons p rest ih =>
      simp only [List.filter_cons]
      by_cases h1 : p.1 ≤ t
      · have h2 : p.1 ≤ v := le_trans h1 h
        simp [h1, h2]
        exact ih
      · by_cases h2 : p.1 ≤ v <;> simp [h1, h2] <;> omega

/-- An entry `(v, t)` with `t < v` makes the count strictly drop from
bound `v` to bound `t`. -/
lemma filter_key_le_strict (map : List (Int × Int)) {v t : Int}
    (hmem : (v, t) ∈ map) (hlt : t < v) :
    (map.filter (fun p => decide (p.1 ≤ t))).length <
      (map.filter (fun p => decide (p.1 ≤ v))).length := by
  induction map with
  | nil => simp at hmem
  | cons p rest ih =>
      rcases List.mem_cons.mp hmem with heq | hmem2
      · have h1 : ¬ p.1 ≤ t := by rw [← heq]; omega
        have h2 : p.1 ≤ v := by rw [← heq]
        have hmono := filter_key_le_mono rest (le_of_lt hlt)
        simp [List.filter_cons, h1, h2]
        omega
      · have hrest := ih hmem2
        simp only [List.filter_cons]
        by_cases h1 : p.1 ≤ t
        · have h2 : p.1 ≤ v := le_trans h1 (le_of_lt hlt)
          simp [h1, h2]
          omega
        · by_cases h2 : p.1 ≤ v <;> simp [h1, h2] <;> omega

/-- On an acyclic map, once the number of entries with key at most `v` is
within the step budget, the chase reaches a fixed point. -/
lemma resolve_merge_reaches_fixpoint (map : List (Int × Int))
    (hacyc : acyclic_forward map) :
    ∀ n v, (map.filter (fun p => decide (p.1 ≤ v))).length ≤ n →
      find_in_intintmap map (resolve_merge_steps map v n) = none := by
  intro n
  induction n with
  | zero =>
      intro v hv
      cases hf : find_in_intintmap map v with
      | none => simpa [resolve_merge_steps] using hf
      | some t =>
          exfalso
          have hm : (v, t) ∈ map.filter (fun p => decide (p.1 ≤ v)) :=
            List.mem_filter.mpr ⟨find_in_intintmap_mem hf, by simp⟩
          have hpos : 0 < (map.filter (fun p => decide (p.1 ≤ v))).length :=
            List.length_pos.mpr (List.ne_nil_of_mem hm)
          omega
  | succ n ih =>
      intro v hv
      rw [resolve_merge_steps]
      cases hf : find_in_intintmap map v with
      | none => simpa using hf
      | some t =>
          have hmem := find_in_intintmap_mem hf
          have hlt : t < v := hacyc _ hmem
          have hdrop := filter_key_le_strict map hmem hlt
          exact ih t (by omega)

/-- The winding number of an empty face list is zero. -/
lemma generalized_winding_number_nil (side : Nat) (co : Vec3R) :
    generalized_winding_number [] side co = 0 := by
  simp [generalized_winding_number]

/-- With no faces on the tested side, the point is not inside. -/
lemma not_inside_no_faces (side : Nat) (co : Vec3R) :
    ¬ point_is_inside_side [] side co := by
  rw [point_is_inside_side, generalized_winding_number_nil]
  norm_num

/-- The decision of do_boolean_op always takes the single side branch,
because `SIDE_A_TAG &&& SIDE_B_TAG = 0` makes `both_sides` false. -/
lemma boolean_group_decision_eq_single (mode : BoolOpMode) (fside : Nat)
    (inside : Bool) :
    boolean_group_decision mode fside inside =
      match mode with
      | BoolOpMode.Isect => { do_remove := !inside, do_flip := false }
      | BoolOpMode.Union => { do_remove := inside, do_flip := false }
      | BoolOpMode.Difference =>
          { do_remove := if decide (fside &&& SIDE_A_TAG ≠ 0) then inside else !inside
            do_flip := decide (fside &&& SIDE_B_TAG ≠ 0) } := by
  have hab : SIDE_A_TAG &&& SIDE_B_TAG = 0 := by decide
  unfold boolean_group_decision
  simp [hab]

/-- Negated summands sum to the negated sum. -/
lemma list_sum_map_neg {α : Type} (l : List α) (g : α → ℝ) :
    (l.map (fun x => -(g x))).sum = -((l.map g).sum) := by
  induction l with
  | nil => simp
  | cons x xs ih => simp [ih]; ring

/-! ## Claim theorems -/

/-- C4 (amended): on a merge map whose entries all point strictly
downward (the acyclic discipline the intersector maintains),
`resolve_merge` reaches a fixed point after at most `n` lookup steps for
`n` map entries: after `map.length` iterations the while loop condition
fails.  (The cycle detection half of the original claim is refuted by
`c4_cycle_is_not_detected`.) -/
theorem c4_acyclic_resolve_merge_terminates (map : List (Int × Int))
    (v : Int) (h : acyclic_forward map) :
    find_in_intintmap map (resolve_merge_steps map v map.length) = none :=
  resolve_merge_reaches_fixpoint map h map.length v (List.length_filter_le _ _)

/-- Witness for c4_acyclic_resolve_merge_terminates at the concrete
acyclic map [(2, 1), (1, 0)] and start vertex 2. -/
theorem c4_acyclic_resolve_merge_terminates_witness :
    acyclic_forward c4_demo_map ∧
      find_in_intintmap c4_demo_map
        (resolve_merge_steps c4_demo_map 2 c4_demo_map.length) = none :=
  ⟨by unfold acyclic_forward; decide,
    c4_acyclic_resolve_merge_terminates c4_demo_map 2
      (by unfold acyclic_forward; decide)⟩

/-- C4 (counterexample): `resolve_merge` contains no cycle detection: on
the cyclic map [(0, 1), (1, 0)] the while loop condition holds after
every number of iterations, so the loop never exits (and in particular no
fatal fault path exists in lines 1207-1216). -/
theorem c4_cycle_is_not_detected : ¬ merge_chase_exits c4_cycle_map 0 := by
  rintro ⟨k, hk⟩
  have key : ∀ n v, v = 0 ∨ v = 1 →
      resolve_merge_steps c4_cycle_map v n = 0 ∨
        resolve_merge_steps c4_cycle_map v n = 1 := by
    intro n
    induction n with
    | zero =>
        intro v hv
        simpa [resolve_merge_steps] using hv
    | succ n ih =>
        intro v hv
        rcases hv with rfl | rfl
        · rw [resolve_merge_steps,
            show find_in_intintmap c4_cycle_map 0 = some 1 from by decide]
          exact ih 1 (Or.inr rfl)
        · rw [resolve_merge_steps,
            show find_in_intintmap c4_cycle_map 1 = some 0 from by decide]
          exact ih 0 (Or.inl rfl)
  rcases key k 0 (Or.inl rfl) with h0 | h0 <;> rw [h0] at hk <;>
    exact absurd hk (by decide)

/-- C5: the entry point reports `true` unconditionally: even when neither
the intersect phase nor the boolean phase changed the mesh (as for two
tetrahedra sharing exactly one edge, where all operators are the
identity), `BM_mesh_boolean` still returns `true`, contradicting its own
doc comment `\return true if the mesh is changed`. -/
theorem c5_returns_true_even_when_unchanged :
    BM_mesh_boolean_return false false = true := rfl

/-- C9: staging the same unordered endpoint pair twice with
`checkdup = true` stages nothing new, but the duplicate call returns the
raw buffer position stored in the edge hash instead of the extended index
`eindex_start + position` that the first call returned: with
`eindex_start = 10`, the first call returns 10, the duplicate call
returns 0. -/
theorem c9_duplicate_edge_returns_position_not_extended_index :
    (meshadd_add_edge c9_start_meshadd 1 2 true).1 = 10
    ∧ (meshadd_add_edge (meshadd_add_edge c9_start_meshadd 1 2 true).2 2 1
        true).1 = 0
    ∧ (meshadd_add_edge (meshadd_add_edge c9_start_meshadd 1 2 true).2 2 1
        true).2
      = (meshadd_add_edge c9_start_meshadd 1 2 true).2 := by decide

/-- C2: the both-sides branch of do_boolean_op is unreachable because
`both_sides = fside & (SIDE_A & SIDE_B)` is `fside & 0 = 0` for every
`fside`; a face carrying both side bits and the opposite-normals bit is
classified through the winding number path instead, so union with the
point not inside keeps the face (the claim requires removal), and
difference keeps `do_flip` tied to the side B bit rather than to
opp_normals (here `do_flip = true` although opp_normals is clear, where
the claim requires flip iff opp_normals). -/
theorem c2_both_sides_rules_not_applied :
    SIDE_A_TAG &&& SIDE_B_TAG = 0
    ∧ boolean_group_decision BoolOpMode.Union
        (SIDE_A_TAG ||| SIDE_B_TAG ||| BOTH_SIDES_OPP_NORMALS_TAG) false
      = { do_remove := false, do_flip := false }
    ∧ boolean_group_decision BoolOpMode.Difference
        (SIDE_A_TAG ||| SIDE_B_TAG) false
      = { do_remove := false, do_flip := true } := by decide

/-- C3: the winding number accumulation negates the contribution of every
face, not only of faces whose opposite-normals bit is set, because line
4000 computes `negate = (fside | BOTH_SIDES_OPP_NORMALS)`, which is
truthy for every `fside`: for every face, flagged or not, the accumulated
contribution is the negated sum of its Van Oosterom and Strackee
terms. -/
theorem c3_every_contribution_negated (co : Vec3R) (f : WFace) :
    face_gwn_contribution co f =
      -((f.tris.map (fun t => oosterom_strackee_term co t.1 t.2.1 t.2.2)).sum) := by
  have hneg : ((f.fside ||| BOTH_SIDES_OPP_NORMALS_TAG) ≠ 0) := by
    intro h
    rw [BOTH_SIDES_OPP_NORMALS_TAG] at h
    have h2 : (f.fside ||| 64).testBit 6 = false := by rw [h]; simp
    rw [Nat.testBit_or] at h2
    have h3 : Nat.testBit 64 6 = true := by decide
    simp [h3] at h2
  have hd : (decide ((f.fside ||| BOTH_SIDES_OPP_NORMALS_TAG) ≠ 0)) = true :=
    decide_eq_true hneg
  unfold face_gwn_contribution
  simp only [hd, if_true]
  exact list_sum_map_neg _ _

/-- C8: in the loose edge closest point case, when the claim's conditions
hold (closest points coincide, point within the segment, no host vertex
within eps of the closest point (1, 0, 0)), the staged vertex does not
carry the coordinates of the computed closest point: line 3452 stages the
stale scratch variable `co` — here (5, 5, 5) — instead of `co_close1`. -/
theorem c8_staged_vertex_has_stale_coordinates :
    loose_edge_line_isect_case c8_empty_imesh c8_empty_meshadd
        (1, 1, 0) (1, -1, 0) 1 (1, 0, 0) (1, 0, 0) (5, 5, 5) (1 / 10)
      = (some 0, c8_result_meshadd)
    ∧ ((5, 5, 5) : Vec3) ≠ (1, 0, 0) := by
  constructor
  · norm_num [loose_edge_line_isect_case, len_squared_v3v3_db,
      imesh_find_co_db, scan_first, meshadd_add_vert, c8_empty_imesh,
      c8_empty_meshadd, c8_result_meshadd]
  · norm_num [Prod.ext_iff]

/-- C1: for a face group whose representative carries exactly one side
bit, with `inside` the winding number test of an interior point of the
representative against the other side, the decision table of
do_boolean_op holds: intersection removes iff not inside (and never
flips); union removes iff inside (and never flips); difference removes a
side A group iff inside without flipping; difference removes a side B
group iff not inside and flips it exactly when it survives; and the point
is declared inside iff the absolute generalized winding number is at
least one half. -/
theorem c1_single_side_classification
    (mode : BoolOpMode) (fside : Nat) (faces : List WFace) (co : Vec3R)
    (inside : Bool)
    (hside : fside &&& SIDE_A_TAG ≠ 0 ∨ fside &&& SIDE_B_TAG ≠ 0)
    (hnotboth : ¬(fside &&& SIDE_A_TAG ≠ 0 ∧ fside &&& SIDE_B_TAG ≠ 0))
    (hin : inside = true ↔ point_is_inside_side faces (otherside_of fside) co) :
    (mode = BoolOpMode.Isect →
      (boolean_group_action (boolean_group_decision mode fside inside)
          = GroupAction.remove
        ↔ ¬ point_is_inside_side faces (otherside_of fside) co)
      ∧ boolean_group_action (boolean_group_decision mode fside inside)
          ≠ GroupAction.flip)
    ∧ (mode = BoolOpMode.Union →
      (boolean_group_action (boolean_group_decision mode fside inside)
          = GroupAction.remove
        ↔ point_is_inside_side faces (otherside_of fside) co)
      ∧ boolean_group_action (boolean_group_decision mode fside inside)
          ≠ GroupAction.flip)
    ∧ (mode = BoolOpMode.Difference → fside &&& SIDE_A_TAG ≠ 0 →
      (boolean_group_action (boolean_group_decision mode fside inside)
          = GroupAction.remove
        ↔ point_is_inside_side faces (otherside_of fside) co)
      ∧ boolean_group_action (boolean_group_decision mode fside inside)
          ≠ GroupAction.flip)
    ∧ (mode = BoolOpMode.Difference → fside &&& SIDE_B_TAG ≠ 0 →
      (boolean_group_action (boolean_group_decision mode fside inside)
          = GroupAction.remove
        ↔ ¬ point_is_inside_side faces (otherside_of fside) co)
      ∧ (boolean_group_action (boolean_group_decision mode fside inside)
          = GroupAction.flip
        ↔ point_is_inside_side faces (otherside_of fside) co))
    ∧ (point_is_inside_side faces (otherside_of fside) co
        ↔ |generalized_winding_number faces (otherside_of fside) co| ≥ 1 / 2) := by
  have hd := boolean_group_decision_eq_single mode fside inside
  refine ⟨?_, ?_, ?_, ?_, Iff.rfl⟩
  · rintro rfl
    rw [hd]
    cases hi : inside
    · have hni : ¬ point_is_inside_side faces (otherside_of fside) co :=
        fun hc => by simpa [hi] using hin.mpr hc
      simp [boolean_group_action, hni]
    · have hyi : point_is_inside_side faces (otherside_of fside) co :=
        hin.mp hi
      simp [boolean_group_action, hyi]
  · rintro rfl
    rw [hd]
    cases hi : inside
    · have hni : ¬ point_is_inside_side faces (otherside_of fside) co :=
        fun hc => by simpa [hi] using hin.mpr hc
      simp [boolean_group_action, hni]
    · have hyi : point_is_inside_side faces (otherside_of fside) co :=
        hin.mp hi
      simp [boolean_group_action, hyi]
  · rintro rfl hA
    have hB : ¬ fside &&& SIDE_B_TAG ≠ 0 := fun hb => hnotboth ⟨hA, hb⟩
    rw [hd]
    cases hi : inside
    · have hni : ¬ point_is_inside_side faces (otherside_of fside) co :=
        fun hc => by simpa [hi] using hin.mpr hc
      simp [boolean_group_action, hni, hA, hB]
    · have hyi : point_is_inside_side faces (otherside_of fside) co :=
        hin.mp hi
      simp [boolean_group_action, hyi, hA, hB]
  · rintro rfl hB
    have hA : ¬ fside &&& SIDE_A_TAG ≠ 0 := fun ha => hnotboth ⟨ha, hB⟩
    rw [hd]
    cases hi : inside
    · have hni : ¬ point_is_inside_side faces (otherside_of fside) co :=
        fun hc => by simpa [hi] using hin.mpr hc
      simp [boolean_group_action, hni, hA, hB]
    · have hyi : point_is_inside_side faces (otherside_of fside) co :=
        hin.mp hi
      simp [boolean_group_action, hyi, hA, hB]

/-- Witness for c1_single_side_classification: a side A only group under
intersection with no faces on the other side (the point is then not
inside, since the winding number of an empty face list is 0) is
removed. -/
theorem c1_single_side_classification_witness :
    boolean_group_action
        (boolean_group_decision BoolOpMode.Isect SIDE_A_TAG false)
      = GroupAction.remove := by
  have h := c1_single_side_classification BoolOpMode.Isect SIDE_A_TAG []
    (0, 0, 0) false (Or.inl (by decide)) (by decide)
    (iff_of_false (by simp) (not_inside_no_faces _ _))
  exact (h.1 rfl).1.mpr (not_inside_no_faces _ _)

/-- Adding an element to an intset makes it a member. -/
lemma mem_add_to_intset_self (s : List Nat) (x : Nat) :
    x ∈ add_to_intset s x := by
  unfold add_to_intset
  split
  · assumption
  · exact List.mem_cons_self _ _

/-- C6 (amended): in the single interval times single interval case the
clipped interval is `[max(a1, b1), min(a2, b2)]`; the pair contributes
nothing iff `min < max - eps`; when the selected end coordinates coincide
within eps a single snapped or staged vertex is recorded; otherwise both
ends are snapped or staged and, unless the two ends resolve to the same
vertex index (in which case only that vertex is recorded), an edge
between them is found or staged and recorded both in the intersect
record and in the intersection-edge set. -/
theorem c6_single_interval_pair (im : IMeshM) (ma : MeshAdd) (ies : List Nat)
    (ia ib : IntervalInfo) (eps : ℚ) :
    ((intersect_single_intervals im ma ies ia ib eps).contrib
        = IsectContrib.nothing
      ↔ min ia.fac2 ib.fac2 < max ia.fac1 ib.fac1 - eps)
    ∧ (¬(min ia.fac2 ib.fac2 < max ia.fac1 ib.fac1 - eps) →
        compare_v3v3_db (interval_start_co ia ib) (interval_end_co ia ib) eps →
        intersect_single_intervals im ma ies ia ib eps =
          { contrib := IsectContrib.vert (isect_pair_snap1 im ma ia ib eps).1,
            meshadd := (isect_pair_snap1 im ma ia ib eps).2,
            intersection_edges := ies })
    ∧ (¬(min ia.fac2 ib.fac2 < max ia.fac1 ib.fac1 - eps) →
        ¬ compare_v3v3_db (interval_start_co ia ib) (interval_end_co ia ib) eps →
        (isect_pair_snap1 im ma ia ib eps).1
          = (isect_pair_snap2 im ma ia ib eps).1 →
        intersect_single_intervals im ma ies ia ib eps =
          { contrib := IsectContrib.vert (isect_pair_snap1 im ma ia ib eps).1,
            meshadd := (isect_pair_snap2 im ma ia ib eps).2,
            intersection_edges := ies })
    ∧ (¬(min ia.fac2 ib.fac2 < max ia.fac1 ib.fac1 - eps) →
        ¬ compare_v3v3_db (interval_start_co ia ib) (interval_end_co ia ib) eps →
        (isect_pair_snap1 im ma ia ib eps).1
          ≠ (isect_pair_snap2 im ma ia ib eps).1 →
        intersect_single_intervals im ma ies ia ib eps =
          { contrib := IsectContrib.edge (isect_pair_edge im ma ia ib eps).1,
            meshadd := (isect_pair_edge im ma ia ib eps).2,
            intersection_edges :=
              add_to_intset ies (isect_pair_edge im ma ia ib eps).1 }
        ∧ (isect_pair_edge im ma ia ib eps).1
            ∈ (intersect_single_intervals im ma ies ia ib eps).intersection_edges) := by
  simp only [intersect_single_intervals]
  by_cases h1 : min ia.fac2 ib.fac2 < max ia.fac1 ib.fac1 - eps
  · simp only [if_pos h1]
    exact ⟨by simp [h1], fun h1n => absurd h1 h1n, fun h1n => absurd h1 h1n,
      fun h1n => absurd h1 h1n⟩
  · simp only [if_neg h1]
    by_cases h2 : compare_v3v3_db (interval_start_co ia ib)
        (interval_end_co ia ib) eps
    · simp only [if_pos h2]
      exact ⟨by simp [h1], fun _ _ => trivial, fun _ h2n => absurd h2 h2n,
        fun _ h2n => absurd h2 h2n⟩
    · simp only [if_neg h2]
      by_cases h3 : (isect_pair_snap1 im ma ia ib eps).1
          = (isect_pair_snap2 im ma ia ib eps).1
      · simp only [if_pos h3]
        exact ⟨by simp [h1], fun _ h2y => absurd h2y h2, fun _ _ _ => trivial,
          fun _ _ h3n => absurd h3 h3n⟩
      · simp only [if_neg h3]
        refine ⟨by simp [h1], fun _ h2y => absurd h2y h2,
          fun _ _ h3y => absurd h3y h3, fun _ _ _ => ⟨trivial, ?_⟩⟩
        exact mem_add_to_intset_self ies _

/-- Host data for the c6 witness: empty host mesh and add buffer, one
interval from parameter 0 at (0,0,0) to parameter 1 at (1,0,0). -/
def c6_wit_imesh : IMeshM := { verts := [], edges := [] }

/-- Empty add buffer for the c6 witness. -/
def c6_wit_meshadd : MeshAdd :=
  { vindex_start := 0, eindex_start := 0, verts := [], edges := [] }

/-- The single interval used on both sides in the c6 witness. -/
def c6_wit_interval : IntervalInfo :=
  { fac1 := 0, fac2 := 1, co1 := (0, 0, 0), co2 := (1, 0, 0) }

/-- Witness for c6_single_interval_pair: identical intervals of length 1
with eps 1/10 over an empty host: both ends are staged as new vertices 0
and 1, a new edge is staged, and it lands in the intersection-edge
set. -/
theorem c6_single_interval_pair_witness :
    intersect_single_intervals c6_wit_imesh c6_wit_meshadd []
        c6_wit_interval c6_wit_interval (1 / 10)
      = { contrib := IsectContrib.edge
            (isect_pair_edge c6_wit_imesh c6_wit_meshadd c6_wit_interval
              c6_wit_interval (1 / 10)).1,
          meshadd := (isect_pair_edge c6_wit_imesh c6_wit_meshadd
            c6_wit_interval c6_wit_interval (1 / 10)).2,
          intersection_edges := add_to_intset []
            (isect_pair_edge c6_wit_imesh c6_wit_meshadd c6_wit_interval
              c6_wit_interval (1 / 10)).1 } := by
  have h := (c6_single_interval_pair c6_wit_imesh c6_wit_meshadd []
    c6_wit_interval c6_wit_interval (1 / 10)).2.2.2
  refine (h ?_ ?_ ?_).1
  · norm_num [c6_wit_interval]
  · norm_num [c6_wit_interval, interval_start_co, interval_end_co,
      compare_v3v3_db]
  · norm_num [isect_pair_snap1, isect_pair_snap2, snap_or_stage_vert,
      imesh_find_co_db, scan_first, meshadd_add_vert, interval_start_co,
      interval_end_co, compare_v3v3_db, len_squared_v3v3_db, c6_wit_imesh,
      c6_wit_meshadd, c6_wit_interval]

/-- Host mesh for the c6 counterexample: one vertex at (3/4, 0, 0), which
is within eps = 1 of both interval end coordinates. -/
def c6_cx_imesh : IMeshM := { verts := [(3 / 4, 0, 0)], edges := [] }

/-- Add buffer for the c6 counterexample (host totals 1 vertex, 7
edges). -/
def c6_cx_meshadd : MeshAdd :=
  { vindex_start := 1, eindex_start := 7, verts := [], edges := [] }

/-- The interval of the c6 counterexample: parameter 0 at (0, 0, 0) to
parameter 3/2 at (3/2, 0, 0). -/
def c6_cx_interval : IntervalInfo :=
  { fac1 := 0, fac2 := 3 / 2, co1 := (0, 0, 0), co2 := (3 / 2, 0, 0) }

/-- C6 (counterexample to the claim as stated): with eps = 1, the clipped
interval [0, 3/2] is not empty and its end coordinates (0,0,0) and
(3/2,0,0) do not coincide within eps, so the claim requires both ends to
be snapped or staged and an edge between them recorded; but the host
vertex (3/4,0,0) is within eps of both ends, both ends snap to vertex 0,
and the code records only that single vertex: no edge is created and the
intersection-edge set stays empty. -/
theorem c6_same_vertex_no_edge_counterexample :
    ¬(min c6_cx_interval.fac2 c6_cx_interval.fac2 <
        max c6_cx_interval.fac1 c6_cx_interval.fac1 - 1)
    ∧ ¬ compare_v3v3_db (interval_start_co c6_cx_interval c6_cx_interval)
        (interval_end_co c6_cx_interval c6_cx_interval) 1
    ∧ (intersect_single_intervals c6_cx_imesh c6_cx_meshadd []
        c6_cx_interval c6_cx_interval 1).contrib = IsectContrib.vert 0
    ∧ (intersect_single_intervals c6_cx_imesh c6_cx_meshadd []
        c6_cx_interval c6_cx_interval 1).intersection_edges = [] := by
  refine ⟨by norm_num [c6_cx_interval], ?_, ?_, ?_⟩
  · norm_num [c6_cx_interval, interval_start_co, interval_end_co,
      compare_v3v3_db]
    rw [abs_of_nonneg (by norm_num : (0 : ℚ) ≤ 3 / 2)]
    norm_num
  · norm_num [intersect_single_intervals, isect_pair_snap1, isect_pair_snap2,
      snap_or_stage_vert, imesh_find_co_db, scan_first, meshadd_add_vert,
      interval_start_co, interval_end_co, compare_v3v3_db,
      len_squared_v3v3_db, c6_cx_imesh, c6_cx_meshadd, c6_cx_interval]
  · norm_num [intersect_single_intervals, isect_pair_snap1, isect_pair_snap2,
      snap_or_stage_vert, imesh_find_co_db, scan_first, meshadd_add_vert,
      interval_start_co, interval_end_co, compare_v3v3_db,
      len_squared_v3v3_db, c6_cx_imesh, c6_cx_meshadd, c6_cx_interval]

/-- C7 (amended): over the candidates delivered by the 10 eps range
search, the callback accumulation of find_coplanar_parts reports no part
(a new part is created) exactly when no already assigned candidate is in
range and passes the callback predicate (`|d1 - d2| <= eps` and
`|n1 . n2 - 1| <= eps * 2 / pi` on canonical planes); and when it reports
a part, it is the part of a matching candidate of minimum face index. -/
theorem c7_near_part_characterization (cands : List (Nat × CanonPlane))
    (test : CanonPlane) (eps : ℝ) :
    (find_coplanar_near cands test eps = none ↔
      ∀ fp ∈ cands,
        ¬(in_search_range test fp.2 eps ∧ find_coplanar_cb_match test fp.2 eps))
    ∧ ∀ g, find_coplanar_near cands test eps = some g →
        (∃ p, (g, p) ∈ cands ∧ in_search_range test p eps ∧
          find_coplanar_cb_match test p eps)
        ∧ ∀ fp ∈ cands,
            in_search_range test fp.2 eps ∧ find_coplanar_cb_match test fp.2 eps →
            g ≤ fp.1 := by
  induction cands with
  | nil => simp [find_coplanar_near]
  | cons hd tl ih =>
      obtain ⟨f, p⟩ := hd
      by_cases hm : in_search_range test p eps ∧ find_coplanar_cb_match test p eps
      · constructor
        · constructor
          · intro hnone
            rw [find_coplanar_near, if_pos hm] at hnone
            exact absurd hnone (by simp)
          · intro hall
            exact absurd hm (hall (f, p) (List.mem_cons_self _ _))
        · intro g hg
          rw [find_coplanar_near, if_pos hm] at hg
          cases hr : find_coplanar_near tl test eps with
          | none =>
              rw [hr] at hg
              have hgf : g = f := by
                simpa using hg.symm
              subst hgf
              refine ⟨⟨p, List.mem_cons_self _ _, hm⟩, ?_⟩
              intro fp hfp hmfp
              rcases List.mem_cons.mp hfp with heq | htl
              · rw [heq]
              · exact absurd hmfp (ih.1.mp hr fp htl)
          | some g0 =>
              rw [hr] at hg
              have hgmin : g = min f g0 := by
                simpa using hg.symm
              subst hgmin
              obtain ⟨⟨p0, hp0mem, hp0m⟩, hlb⟩ := ih.2 g0 hr
              constructor
              · rcases le_total f g0 with hle | hle
                · rw [min_eq_left hle]
                  exact ⟨p, List.mem_cons_self _ _, hm⟩
                · rw [min_eq_right hle]
                  exact ⟨p0, List.mem_cons_of_mem _ hp0mem, hp0m⟩
              · intro fp hfp hmfp
                rcases List.mem_cons.mp hfp with heq | htl
                · rw [heq]
                  exact min_le_left _ _
                · exact le_trans (min_le_right f g0) (hlb fp htl hmfp)
      · have hstep : find_coplanar_near ((f, p) :: tl) test eps
            = find_coplanar_near tl test eps := by
          rw [find_coplanar_near, if_neg hm]
        constructor
        · rw [hstep, ih.1]
          constructor
          · intro hall fp hfp
            rcases List.mem_cons.mp hfp with heq | htl
            · rw [heq]
              exact hm
            · exact hall fp htl
          · intro hall fp hfp
            exact hall fp (List.mem_cons_of_mem _ hfp)
        · intro g hg
          rw [hstep] at hg
          obtain ⟨⟨p0, hp0mem, hp0m⟩, hlb⟩ := ih.2 g hg
          refine ⟨⟨p0, List.mem_cons_of_mem _ hp0mem, hp0m⟩, ?_⟩
          intro fp hfp hmfp
          rcases List.mem_cons.mp hfp with heq | htl
          · rw [heq] at hmfp
            exact absurd hmfp hm
          · exact hlb fp htl hmfp

/-- Query plane of the c7 witness. -/
noncomputable def c7_wit_test : CanonPlane := { a := -1, b := 0, c := 0, d := 0 }

/-- A candidate plane whose offset differs by 10, far outside eps = 1. -/
noncomputable def c7_wit_far : CanonPlane := { a := -1, b := 0, c := 0, d := 10 }

/-- Witness for c7_near_part_characterization: with the only candidate
failing the offset test, no part is found and a new part is created. -/
theorem c7_near_part_characterization_witness :
    find_coplanar_near [(0, c7_wit_far)] c7_wit_test 1 = none := by
  apply (c7_near_part_characterization [(0, c7_wit_far)] c7_wit_test 1).1.mpr
  intro fp hfp
  have hfp0 : fp = (0, c7_wit_far) := by simpa using hfp
  rw [hfp0]
  rintro ⟨_, hcb⟩
  have hd := hcb.1
  norm_num [c7_wit_test, c7_wit_far] at hd

/-- Canonical plane of face 0 in the c7 counterexample: unit normal
(-12/13, -5/13, 0), offset 0. -/
noncomputable def c7_cx_p0 : CanonPlane := { a := -12 / 13, b := -5 / 13, c := 0, d := 0 }

/-- Canonical plane of the queried face in the c7 counterexample: unit
normal (-1, 0, 0), offset 0. -/
noncomputable def c7_cx_p1 : CanonPlane := { a := -1, b := 0, c := 0, d := 0 }

/-- C7 (counterexample to the claim as stated): with eps = 1/13, the
candidate plane p0 satisfies the claimed coplanarity predicate against
the query plane p1 (both the source planes_are_coplanar and the spec
formula |n1 . n2| >= 1 - eps, |d1 - sign(n1 . n2) d2| <= eps hold, since
n1 . n2 = 12/13 = 1 - eps) and lies within the 10 eps range, yet the
callback predicate of find_coplanar_cb demands
|n1 . n2 - 1| <= eps * 2 / pi, which fails because 2 / pi < 1; the face
is therefore not appended to the candidate part: a new part is
created. -/
theorem c7_coplanar_predicate_counterexample :
    planes_are_coplanar c7_cx_p1 c7_cx_p0 (1 / 13)
    ∧ spec_coplanar_predicate c7_cx_p1 c7_cx_p0 (1 / 13)
    ∧ in_search_range c7_cx_p1 c7_cx_p0 (1 / 13)
    ∧ find_coplanar_near [(0, c7_cx_p0)] c7_cx_p1 (1 / 13) = none := by
  have hdot : plane_normal_dot c7_cx_p1 c7_cx_p0 = 12 / 13 := by
    norm_num [plane_normal_dot, c7_cx_p1, c7_cx_p0]
  have habs : |(12 : ℝ) / 13 - 1| = 1 / 13 := by
    rw [show (12 : ℝ) / 13 - 1 = -(1 / 13) by norm_num, abs_neg,
      abs_of_nonneg (by norm_num : (0 : ℝ) ≤ 1 / 13)]
  refine ⟨?_, ?_, ?_, ?_⟩
  · unfold planes_are_coplanar
    rw [hdot, if_pos (by norm_num : (0 : ℝ) < 12 / 13)]
    constructor
    · rw [habs]
    · norm_num [c7_cx_p1, c7_cx_p0]
  · unfold spec_coplanar_predicate
    rw [hdot]
    constructor
    · rw [abs_of_nonneg (by norm_num : (0 : ℝ) ≤ 12 / 13)]
      norm_num
    · rw [Real.sign_of_pos (by norm_num : (0 : ℝ) < 12 / 13)]
      norm_num [c7_cx_p1, c7_cx_p0]
  · unfold in_search_range plane_dist4_sq
    norm_num [c7_cx_p1, c7_cx_p0]
  · have hnocb : ¬ find_coplanar_cb_match c7_cx_p1 c7_cx_p0 (1 / 13) := by
      rintro ⟨_, hd2⟩
      rw [hdot, habs] at hd2
      have hpi : (2 : ℝ) / Real.pi < 1 :=
        (div_lt_one Real.pi_pos).mpr (by linarith [Real.pi_gt_three])
      have hlt : (1 : ℝ) / 13 * (2 / Real.pi) < 1 / 13 * 1 :=
        mul_lt_mul_of_pos_left hpi (by norm_num)
      linarith
    simp only [find_coplanar_near]
    rw [if_neg (fun hc => hnocb hc.2)]

/-- C10: the state intersect_partset_pair accumulates from the BVH
overlap results does not depend on the order in which the external
primitive delivered them: the overlap array is sorted with the
lexicographic comparator before the processing loop runs, so two runs
whose overlap lists are permutations of each other produce the same
result for every deterministic loop body and initial state. -/
theorem c10_overlap_order_independent {σ : Type} (step : σ → Nat × Nat → σ)
    (init : σ) (l1 l2 : List (Nat × Nat)) (h : l1.Perm l2) :
    intersect_partset_overlap_fold step init l1 =
      intersect_partset_overlap_fold step init l2 := by
  unfold intersect_partset_overlap_fold
  have hs : l1.insertionSort overlap_le = l2.insertionSort overlap_le :=
    List.eq_of_perm_of_sorted
      (((List.perm_insertionSort overlap_le l1).trans h).trans
        (List.perm_insertionSort overlap_le l2).symm)
      (List.sorted_insertionSort overlap_le l1)
      (List.sorted_insertionSort overlap_le l2)
  rw [hs]

/-- Witness for c10_overlap_order_independent: recording the processing
order of two overlaps delivered in either order gives the same list. -/
theorem c10_overlap_order_independent_witness :
    intersect_partset_overlap_fold
        (fun (s : List (Nat × Nat)) p => s ++ [p]) [] [(1, 2), (0, 1)]
      = intersect_partset_overlap_fold
        (fun (s : List (Nat × Nat)) p => s ++ [p]) [] [(0, 1), (1, 2)] :=
  c10_overlap_order_independent _ _ _ _ (List.Perm.swap (0, 1) (1, 2) [])
